import Mathlib

/-!
Shallow embedding of `src/fleet_ops.py` (Fleet Commander).

The script delegates every repository operation to GitPython; any such call
may raise. We model the behaviour of one repository's `Repo` object as an
abstract environment (`RepoEnv`) recording, for each delegated call, whether
it succeeds and what it returns, and we embed the script's functions as pure
Lean functions over that environment. Printed output is modelled as lists of
message values, performed git operations as traces of `Op`, and a Python
exception escaping a function as an `Option String` in the result.
-/

namespace FleetOps

/-- `DEVICE_NAME` global: chosen from the `PREFIX` environment marker
(`mobile = true` when running under Termux). -/
def DEVICE_NAME (mobile : Bool) : String :=
  if mobile then "Pixel 8a (Mobile)" else "Laptop (Base)"

/-- `ROOT_DIR` global, chosen alongside `DEVICE_NAME`. Both values end in a
slash, exactly as in the source. -/
def ROOT_DIR (mobile : Bool) : String :=
  if mobile then "/storage/emulated/0/pixel8a/unexusi/" else "/home/sauron/unexusi/"

/-- `os.path.join(a, b)` for a relative `b`: inserts a separator unless `a`
already ends with one. -/
def pathJoin (a b : String) : String :=
  if a.endsWith "/" then a ++ b else a ++ "/" ++ b

/-- `os.path.basename`: the part of the path after the last separator. -/
def basename (p : String) : String :=
  ((p.splitOn "/").reverse).headD ""

/-- Behaviour of one repository's `Repo` object, i.e. of every GitPython call
the script makes on it. Fallible calls carry the failure they would raise.

* `validRepo`: whether `Repo(repo_path)` itself succeeds.
* `activeBranch`: `repo.active_branch.name`, `none` when HEAD is detached
  (GitPython raises in that case).
* `dirtyCheck`: result of `repo.is_dirty(untracked_files=True)`; this call is
  also delegated and may raise (`Except.error`).
* `remotes`: names of the configured remotes; `repo.remotes.origin` raises
  unless `"origin"` is among them.
* `fetchOk`: whether `origin.fetch()` succeeds (network operation).
* `tracking`: `active_branch.tracking_branch()`, `none` when no tracking
  branch is configured.
* `behindCount` / `aheadCount`: sizes of the commit ranges
  `local..remote` and `remote..local` that `iter_commits` would report.
* `addErr`, `commitErr`, `pullErr`, `pushErr`: failure raised by
  `repo.git.add(all=True)`, `repo.index.commit(...)`, `origin.pull()` and
  `origin.push()` respectively, `none` when the call succeeds. -/
structure RepoEnv where
  validRepo : Bool
  activeBranch : Option String
  dirtyCheck : Except String Bool
  remotes : List String
  fetchOk : Bool
  tracking : Option String
  behindCount : Nat
  aheadCount : Nat
  addErr : Option String
  commitErr : Option String
  pullErr : Option String
  pushErr : Option String
deriving Repr

/-- The status dictionary built by `get_git_status` (the `"repo"` entry, the
live `Repo` object, is represented separately by the `RepoEnv` it behaves
as). -/
structure RepoStatus where
  path : String
  name : String
  dirty : Bool
  ahead : Nat
  behind : Nat
  branch : String
deriving DecidableEq, Repr

/-- The `(ahead, behind)` pair the guarded sync-check block of
`get_git_status` leaves in the record: the true counts only when `origin`
access, the fetch and the `active_branch` lookup all succeed and a tracking
branch is configured; the `(0, 0)` defaults otherwise. -/
def syncCounts (env : RepoEnv) : Nat × Nat :=
  if "origin" ∈ env.remotes ∧ env.fetchOk = true ∧ env.activeBranch.isSome then
    match env.tracking with
    | some _ => (env.aheadCount, env.behindCount)
    | none => (0, 0)
  else (0, 0)

/-- `get_git_status(repo_path)`.  The outer `try` returns `None` when
`Repo(repo_path)` fails, and also when any unguarded call in the body raises
(the dirty check is the only such call).  Branch resolution has its own
handler substituting `"DETACHED"`.  The sync check is one guarded block:
`origin` access, `fetch`, `active_branch`, `tracking_branch()` in sequence —
a failure anywhere leaves `ahead`/`behind` at their 0 defaults (see
`syncCounts`). -/
def get_git_status (repo_path : String) (env : RepoEnv) : Option RepoStatus :=
  if env.validRepo then
    match env.dirtyCheck with
    | Except.error _ => none
    | Except.ok d =>
      some { path := repo_path, name := basename repo_path, dirty := d,
             ahead := (syncCounts env).1, behind := (syncCounts env).2,
             branch := match env.activeBranch with
               | some b => b
               | none => "DETACHED" }
  else none

/-- Git operations `sync_repo` can perform, in the order they complete. -/
inductive Op where
  | stageAll : Op
  | commit : String → Op
  | pull : Op
  | push : Op
deriving DecidableEq, Repr

/-- Console output of `sync_repo` (one constructor per `print` site;
`fileDetails` stands for the listing produced by `show_file_details`). -/
inductive SyncMsg where
  | processing : String → SyncMsg
  | fileDetails : SyncMsg
  | localSaved : SyncMsg
  | pulled : SyncMsg
  | pushed : SyncMsg
  | alreadyClean : SyncMsg
  | syncError : String → SyncMsg
deriving DecidableEq, Repr

/-- Result of one `sync_repo` call: the git operations that completed, the
messages printed, and the exception propagating out of the call, if any. -/
structure SyncResult where
  ops : List Op
  reported : List SyncMsg
  raised : Option String
deriving DecidableEq, Repr

/-- Message of the `AttributeError` raised by `repo.remotes.origin` when no
remote is named `origin`. -/
def noOriginError : String := "Remote named origin did not exist"

/-- Tail of `sync_repo` after a successful push decision: the
`if not dirty and ahead == 0 and behind == 0` report, still inside the
`try`. -/
def syncClean (d : RepoStatus) (ops : List Op) (reported : List SyncMsg) : SyncResult :=
  if d.dirty = false ∧ d.ahead = 0 ∧ d.behind = 0 then
    { ops := ops, reported := reported ++ [SyncMsg.alreadyClean], raised := none }
  else
    { ops := ops, reported := reported, raised := none }

/-- Push step of `sync_repo`: `if repo_data['dirty'] or repo_data['ahead'] > 0`
then `origin.push()`; a push failure is caught by the surrounding handler. -/
def syncPush (d : RepoStatus) (env : RepoEnv) (ops : List Op) (reported : List SyncMsg) :
    SyncResult :=
  if d.dirty = true ∨ d.ahead > 0 then
    match env.pushErr with
    | some e => { ops := ops, reported := reported ++ [SyncMsg.syncError e], raised := none }
    | none => syncClean d (ops ++ [Op.push]) (reported ++ [SyncMsg.pushed])
  else syncClean d ops reported

/-- Guarded block of `sync_repo`: `origin` access, then
`if repo_data['behind'] > 0: origin.pull()`, then the push step.  Any failure
lands in the `except` clause, which prints the message and returns
normally. -/
def syncRemote (d : RepoStatus) (env : RepoEnv) (ops : List Op) (reported : List SyncMsg) :
    SyncResult :=
  if "origin" ∈ env.remotes then
    if d.behind > 0 then
      match env.pullErr with
      | some e => { ops := ops, reported := reported ++ [SyncMsg.syncError e], raised := none }
      | none => syncPush d env (ops ++ [Op.pull]) (reported ++ [SyncMsg.pulled])
    else syncPush d env ops reported
  else
    { ops := ops, reported := reported ++ [SyncMsg.syncError noOriginError], raised := none }

/-- `sync_repo(repo_data, auto_message)`.  The save phase
(`show_file_details`, `repo.git.add(all=True)`, `repo.index.commit(...)`)
runs first when the record says dirty and is *not* inside any `try`: a
failure there propagates out of `sync_repo` (`raised`).  Only then comes the
guarded pull/push block. -/
def sync_repo (d : RepoStatus) (auto_message : String) (env : RepoEnv) : SyncResult :=
  let rep0 := [SyncMsg.processing d.name]
  if d.dirty then
    let rep1 := rep0 ++ [SyncMsg.fileDetails]
    match env.addErr with
    | some e => { ops := [], reported := rep1, raised := some e }
    | none =>
      match env.commitErr with
      | some e => { ops := [Op.stageAll], reported := rep1, raised := some e }
      | none =>
        syncRemote d env [Op.stageAll, Op.commit auto_message]
          (rep1 ++ [SyncMsg.localSaved])
  else
    syncRemote d env [] rep0

/-- The first failing remote operation `sync_repo` runs into (following the
order of the guarded block), with the message it raises: `origin` access,
then pull when behind, then push when dirty or ahead.  `none` when the
guarded block completes without failure. -/
def firstRemoteError (d : RepoStatus) (env : RepoEnv) : Option String :=
  if "origin" ∈ env.remotes then
    if d.behind > 0 ∧ env.pullErr.isSome then env.pullErr
    else if (d.dirty = true ∨ d.ahead > 0) ∧ env.pushErr.isSome then env.pushErr
    else none
  else some noOriginError

/-- The `'a'` branch of the dashboard: `for repo_data in repos_found:
sync_repo(repo_data)` with the default batch message.  Each repository is the
status record paired with the behaviour of its `"repo"` object.  An
exception escaping `sync_repo` aborts the Python `for` loop, so processing
stops at the first raising repository (second component of the result). -/
def batch_sync : List (RepoStatus × RepoEnv) → List SyncResult × Option String
  | [] => ([], none)
  | p :: rest =>
    match (sync_repo p.1 "Auto-sync via Fleet Commander" p.2).raised with
    | some e => ([sync_repo p.1 "Auto-sync via Fleet Commander" p.2], some e)
    | none =>
      (sync_repo p.1 "Auto-sync via Fleet Commander" p.2 :: (batch_sync rest).1,
        (batch_sync rest).2)

/-- The filesystem and per-repository behaviour visible to `main_dashboard`:
whether `ROOT_DIR` exists, the device flag, the names `os.listdir(ROOT_DIR)`
yields (in arbitrary order), which of them are directories / contain a
`.git` directory, and how each one's `Repo` object behaves. -/
structure FS where
  rootExists : Bool
  deviceMobile : Bool
  entries : List String
  isDir : String → Bool
  hasGitDir : String → Bool
  repoEnv : String → RepoEnv

/-- Messages printed by `check_permissions` when the root is missing. -/
inductive PermMsg where
  | warningMissing : String → String → PermMsg
  | hintCheckFolder : PermMsg
  | hintTermuxSetup : PermMsg
deriving DecidableEq, Repr

/-- `check_permissions()`: prints a warning (plus Termux hints on mobile) and
returns `False` when `ROOT_DIR` does not exist; returns `True` otherwise.
Nothing is raised in either case. -/
def check_permissions (fs : FS) : Bool × List PermMsg :=
  if fs.rootExists then (true, [])
  else
    (false,
      PermMsg.warningMissing (ROOT_DIR fs.deviceMobile) (DEVICE_NAME fs.deviceMobile) ::
        (if fs.deviceMobile then [PermMsg.hintCheckFolder, PermMsg.hintTermuxSetup] else []))

/-- One iteration of the scan loop body for folder `folder_name`: the status
appended to `repos_found`, if any.  The folder qualifies when
`os.path.isdir(folder_path)` and `os.path.isdir(folder_path/.git)` hold, and
its status is kept when `get_git_status` returns a record. -/
def scanFolder (fs : FS) (root : String) (folder_name : String) : Option RepoStatus :=
  if fs.isDir folder_name = true ∧ fs.hasGitDir folder_name = true then
    get_git_status (pathJoin root folder_name) (fs.repoEnv folder_name)
  else none

/-- The `repos_found` list one pass of the dashboard loop builds:
`sorted(os.listdir(ROOT_DIR))` (Python's `sorted` on strings is
lexicographic, modelled by insertion sort under `String`'s order), filtered
through the scan loop body in order.  When the root does not exist the
`if os.path.exists(ROOT_DIR)` guard skips the walk and the list stays
empty. -/
def scan (fs : FS) : List RepoStatus :=
  if fs.rootExists then
    (List.insertionSort (fun a b : String => a ≤ b) fs.entries).filterMap
      (scanFolder fs (ROOT_DIR fs.deviceMobile))
  else []

/-- How far `main_dashboard` gets before first waiting on user input. -/
inductive DashOutcome where
  | abortedNoRoot : DashOutcome
  | loopEntered : List RepoStatus → DashOutcome
deriving DecidableEq, Repr

/-- Entry of `main_dashboard()`: when `check_permissions()` is false the
function returns after one prompt, never entering the `while True` command
loop; otherwise the loop is entered and its first pass scans
`repos_found`. -/
def main_dashboard_start (fs : FS) : DashOutcome :=
  if (check_permissions fs).1 then DashOutcome.loopEntered (scan fs)
  else DashOutcome.abortedNoRoot

/-- The condition under which the scan loop keeps folder `n` in
`repos_found`: it is a directory, contains a `.git` directory, and
`get_git_status` yields a record for it. -/
def qualifies (fs : FS) (root : String) (n : String) : Bool :=
  fs.isDir n && fs.hasGitDir n &&
    (get_git_status (pathJoin root n) (fs.repoEnv n)).isSome

/-- A repository whose every delegated git call succeeds: on branch `main`,
dirty, tracking `origin/main`, in sync. -/
def envAllOk : RepoEnv :=
  { validRepo := true, activeBranch := some "main", dirtyCheck := Except.ok true,
    remotes := ["origin"], fetchOk := true, tracking := some "origin/main",
    behindCount := 0, aheadCount := 0,
    addErr := none, commitErr := none, pullErr := none, pushErr := none }

/-- Like `envAllOk` except that the `repo.is_dirty(untracked_files=True)`
call raises. -/
def envDirtyCheckFails : RepoEnv :=
  { envAllOk with dirtyCheck := Except.error "index file corrupt" }

/-- Like `envAllOk` except that the only remote is named `upstream`, so
`repo.remotes.origin` raises. -/
def envNoOrigin : RepoEnv :=
  { envAllOk with remotes := ["upstream"], aheadCount := 2, behindCount := 3 }

/-- Like `envAllOk` except that `origin.fetch()` fails (network down) while
the repository is genuinely 2 ahead and 3 behind. -/
def envFetchFails : RepoEnv :=
  { envAllOk with fetchOk := false, aheadCount := 2, behindCount := 3 }

/-- `Repo(repo_path)` itself raises: corrupt metadata. -/
def envInvalidRepo : RepoEnv :=
  { envAllOk with validRepo := false }

/-- A dirty status record as `get_git_status` would build it. -/
def dirtyStatus : RepoStatus :=
  { path := "/home/sauron/unexusi/alpha", name := "alpha", dirty := true,
    ahead := 0, behind := 0, branch := "main" }

/-- A fully synced, clean status record. -/
def cleanStatus : RepoStatus :=
  { path := "/home/sauron/unexusi/beta", name := "beta", dirty := false,
    ahead := 0, behind := 0, branch := "main" }

/-- A laptop filesystem whose root directory is missing. -/
def fsMissingRoot : FS :=
  { rootExists := false, deviceMobile := false, entries := [],
    isDir := fun _ => false, hasGitDir := fun _ => false,
    repoEnv := fun _ => envAllOk }

/-- A laptop filesystem with one healthy repository folder `alpha`. -/
def fsOneRepo : FS :=
  { rootExists := true, deviceMobile := false, entries := ["alpha"],
    isDir := fun n => n == "alpha", hasGitDir := fun n => n == "alpha",
    repoEnv := fun _ => envAllOk }

/-- A laptop filesystem with one folder `broken` that has a `.git` directory
but corrupt metadata. -/
def fsCorruptRepo : FS :=
  { rootExists := true, deviceMobile := false, entries := ["broken"],
    isDir := fun n => n == "broken", hasGitDir := fun n => n == "broken",
    repoEnv := fun _ => envInvalidRepo }

/-- Like `envAllOk` except that `repo.git.add(all=True)` raises. -/
def envAddFails : RepoEnv :=
  { envAllOk with addErr := some "add failed: permission denied" }

/-! ## Helper lemmas -/

theorem syncClean_ops (d : RepoStatus) (ops : List Op) (rep : List SyncMsg) :
    (syncClean d ops rep).ops = ops := by
  unfold syncClean
  split <;> rfl

theorem syncClean_raised (d : RepoStatus) (ops : List Op) (rep : List SyncMsg) :
    (syncClean d ops rep).raised = none := by
  unfold syncClean
  split <;> rfl

theorem syncPush_raised (d : RepoStatus) (env : RepoEnv) (ops : List Op)
    (rep : List SyncMsg) : (syncPush d env ops rep).raised = none := by
  unfold syncPush
  split
  · cases h : env.pushErr <;> simp [syncClean_raised]
  · exact syncClean_raised _ _ _

theorem syncRemote_raised (d : RepoStatus) (env : RepoEnv) (ops : List Op)
    (rep : List SyncMsg) : (syncRemote d env ops rep).raised = none := by
  unfold syncRemote
  split
  · split
    · cases h : env.pullErr <;> simp [syncPush_raised]
    · exact syncPush_raised _ _ _ _
  · rfl

theorem syncPush_ops_append (d : RepoStatus) (env : RepoEnv) (ops : List Op)
    (rep : List SyncMsg) : ∃ t, (syncPush d env ops rep).ops = ops ++ t := by
  unfold syncPush
  split
  · cases h : env.pushErr
    · exact ⟨[Op.push], by simp [syncClean_ops]⟩
    · exact ⟨[], by simp⟩
  · exact ⟨[], by simp [syncClean_ops]⟩

theorem syncRemote_ops_append (d : RepoStatus) (env : RepoEnv) (ops : List Op)
    (rep : List SyncMsg) : ∃ t, (syncRemote d env ops rep).ops = ops ++ t := by
  unfold syncRemote
  split
  · split
    · cases h : env.pullErr
      · obtain ⟨t, ht⟩ := syncPush_ops_append d env (ops ++ [Op.pull]) (rep ++ [SyncMsg.pulled])
        exact ⟨Op.pull :: t, by simp [ht]⟩
      · exact ⟨[], by simp⟩
    · exact syncPush_ops_append _ _ _ _
  · exact ⟨[], by simp⟩

theorem syncPush_ops_ok (d : RepoStatus) (env : RepoEnv) (ops : List Op)
    (rep : List SyncMsg) (h : env.pushErr = none) :
    (syncPush d env ops rep).ops =
      ops ++ (if d.dirty = true ∨ d.ahead > 0 then [Op.push] else []) := by
  unfold syncPush
  split
  case isTrue hc => rw [h]; simp [syncClean_ops, if_pos hc]
  case isFalse hc => simp [syncClean_ops, if_neg hc]

theorem syncRemote_ops_ok (d : RepoStatus) (env : RepoEnv) (ops : List Op)
    (rep : List SyncMsg) (ho : "origin" ∈ env.remotes)
    (hpull : env.pullErr = none) (hpush : env.pushErr = none) :
    (syncRemote d env ops rep).ops =
      ops ++ (if d.behind > 0 then [Op.pull] else []) ++
        (if d.dirty = true ∨ d.ahead > 0 then [Op.push] else []) := by
  unfold syncRemote
  rw [if_pos ho]
  split
  case isTrue hb =>
    rw [hpull, syncPush_ops_ok _ _ _ _ hpush]
  case isFalse hb =>
    rw [syncPush_ops_ok _ _ _ _ hpush]
    simp

theorem sync_repo_dirty_ops_shape (d : RepoStatus) (msg : String) (env : RepoEnv)
    (hd : d.dirty = true) :
    (sync_repo d msg env).ops = [] ∨
    (sync_repo d msg env).ops = [Op.stageAll] ∨
    ∃ t, (sync_repo d msg env).ops = Op.stageAll :: Op.commit msg :: t := by
  unfold sync_repo
  rw [hd]
  cases ha : env.addErr
  · cases hc : env.commitErr
    · obtain ⟨t, ht⟩ := syncRemote_ops_append d env [Op.stageAll, Op.commit msg]
        ([SyncMsg.processing d.name] ++ [SyncMsg.fileDetails] ++ [SyncMsg.localSaved])
      refine Or.inr (Or.inr ⟨t, ?_⟩)
      show (syncRemote d env [Op.stageAll, Op.commit msg]
        ([SyncMsg.processing d.name] ++ [SyncMsg.fileDetails] ++ [SyncMsg.localSaved])).ops =
          Op.stageAll :: Op.commit msg :: t
      rw [ht]
      rfl
    · exact Or.inr (Or.inl rfl)
  · exact Or.inl rfl

/-! ## Claims -/

/-- C1: `sync_repo` runs its conditional steps in strict order: when the
record is dirty it stages everything and commits with the given message,
then pulls when behind, then pushes when (pre-commit) dirty or ahead; and
for a dirty record the stage-and-commit always precedes any push, whatever
the repository behaviour. -/
theorem sync_repo_strict_order (d : RepoStatus) (msg : String) (env : RepoEnv)
    (ho : "origin" ∈ env.remotes) (hadd : env.addErr = none)
    (hcommit : env.commitErr = none) (hpull : env.pullErr = none)
    (hpush : env.pushErr = none) :
    (sync_repo d msg env).ops =
      (if d.dirty = true then [Op.stageAll, Op.commit msg] else []) ++
        (if d.behind > 0 then [Op.pull] else []) ++
        (if d.dirty = true ∨ d.ahead > 0 then [Op.push] else []) ∧
    ∀ env2 : RepoEnv, d.dirty = true → Op.push ∈ (sync_repo d msg env2).ops →
      ∃ t, (sync_repo d msg env2).ops = Op.stageAll :: Op.commit msg :: t := by
  constructor
  · cases hd : d.dirty
    case false =>
      have he : sync_repo d msg env = syncRemote d env [] [SyncMsg.processing d.name] := by
        unfold sync_repo
        rw [hd]
        rfl
      rw [he, syncRemote_ops_ok _ _ _ _ ho hpull hpush]
      simp [hd]
    case true =>
      have he : sync_repo d msg env =
          syncRemote d env [Op.stageAll, Op.commit msg]
            ([SyncMsg.processing d.name] ++ [SyncMsg.fileDetails] ++ [SyncMsg.localSaved]) := by
        unfold sync_repo
        rw [hd, hadd, hcommit]
        rfl
      rw [he, syncRemote_ops_ok _ _ _ _ ho hpull hpush]
      simp [hd]
  · intro env2 hd hmem
    rcases sync_repo_dirty_ops_shape d msg env2 hd with h0 | h1 | ⟨t, ht⟩
    · rw [h0] at hmem
      simp at hmem
    · rw [h1] at hmem
      simp at hmem
    · exact ⟨t, ht⟩

/-- C1 witness: a dirty, in-sync repository with all calls succeeding. -/
theorem sync_repo_strict_order_witness :
    (sync_repo dirtyStatus "m" envAllOk).ops =
      (if dirtyStatus.dirty = true then [Op.stageAll, Op.commit "m"] else []) ++
        (if dirtyStatus.behind > 0 then [Op.pull] else []) ++
        (if dirtyStatus.dirty = true ∨ dirtyStatus.ahead > 0 then [Op.push] else []) ∧
    ∀ env2 : RepoEnv, dirtyStatus.dirty = true →
      Op.push ∈ (sync_repo dirtyStatus "m" env2).ops →
      ∃ t, (sync_repo dirtyStatus "m" env2).ops = Op.stageAll :: Op.commit "m" :: t :=
  sync_repo_strict_order dirtyStatus "m" envAllOk (by decide) rfl rfl rfl rfl

/-- C2 counterexample: a clean, fully synced record whose repository has no
remote named `origin`.  `sync_repo` still performs zero git operations, but
`origin = repo.remotes.origin` raises inside the `try`, so the handler
reports the sync error and the "Already clean" report is never reached —
contrary to the claim. -/
theorem sync_repo_clean_no_origin_reports_error :
    (sync_repo cleanStatus "m" envNoOrigin).ops = [] ∧
    SyncMsg.alreadyClean ∉ (sync_repo cleanStatus "m" envNoOrigin).reported ∧
    SyncMsg.syncError noOriginError ∈ (sync_repo cleanStatus "m" envNoOrigin).reported := by
  decide

/-- C2 amended: on a record with `dirty = false`, `ahead = 0`, `behind = 0`,
`sync_repo` performs no git operation and raises nothing, whatever the
repository's behaviour; it reports "already clean" when a remote named
`origin` exists, but when the `origin` lookup fails the caught sync error is
reported instead of "already clean". -/
theorem sync_repo_clean_zero_ops (d : RepoStatus) (msg : String) (env : RepoEnv)
    (hd : d.dirty = false) (ha : d.ahead = 0) (hb : d.behind = 0) :
    (sync_repo d msg env).ops = [] ∧
    (sync_repo d msg env).raised = none ∧
    ("origin" ∈ env.remotes → SyncMsg.alreadyClean ∈ (sync_repo d msg env).reported) ∧
    ("origin" ∉ env.remotes →
      SyncMsg.syncError noOriginError ∈ (sync_repo d msg env).reported ∧
      SyncMsg.alreadyClean ∉ (sync_repo d msg env).reported) := by
  have he : sync_repo d msg env = syncRemote d env [] [SyncMsg.processing d.name] := by
    unfold sync_repo
    rw [hd]
    rfl
  by_cases ho : "origin" ∈ env.remotes
  · have hr : syncRemote d env [] [SyncMsg.processing d.name] =
        { ops := [],
          reported := [SyncMsg.processing d.name] ++ [SyncMsg.alreadyClean],
          raised := none } := by
      unfold syncRemote syncPush syncClean
      simp [hd, ha, hb, if_pos ho]
    rw [he, hr]
    exact ⟨rfl, rfl, fun _ => by simp, fun hno => absurd ho hno⟩
  · have hr : syncRemote d env [] [SyncMsg.processing d.name] =
        { ops := [],
          reported := [SyncMsg.processing d.name] ++ [SyncMsg.syncError noOriginError],
          raised := none } := by
      unfold syncRemote
      rw [if_neg ho]
    rw [he, hr]
    exact ⟨rfl, rfl, fun hyes => absurd hyes ho, fun _ => ⟨by simp, by simp⟩⟩

/-- C2 witness: a clean, fully synced repository with an `origin` remote. -/
theorem sync_repo_clean_zero_ops_witness :
    (sync_repo cleanStatus "m" envAllOk).ops = [] ∧
    (sync_repo cleanStatus "m" envAllOk).raised = none ∧
    ("origin" ∈ envAllOk.remotes →
      SyncMsg.alreadyClean ∈ (sync_repo cleanStatus "m" envAllOk).reported) ∧
    ("origin" ∉ envAllOk.remotes →
      SyncMsg.syncError noOriginError ∈ (sync_repo cleanStatus "m" envAllOk).reported ∧
      SyncMsg.alreadyClean ∉ (sync_repo cleanStatus "m" envAllOk).reported) :=
  sync_repo_clean_zero_ops cleanStatus "m" envAllOk rfl rfl rfl

theorem sync_repo_raised_none (d : RepoStatus) (msg : String) (env : RepoEnv)
    (ha : env.addErr = none) (hc : env.commitErr = none) :
    (sync_repo d msg env).raised = none := by
  unfold sync_repo
  cases hd : d.dirty
  · exact syncRemote_raised d env [] [SyncMsg.processing d.name]
  · rw [ha, hc]
    exact syncRemote_raised d env [Op.stageAll, Op.commit msg]
      ([SyncMsg.processing d.name] ++ [SyncMsg.fileDetails] ++ [SyncMsg.localSaved])

theorem syncPush_reports (d : RepoStatus) (env : RepoEnv) (ops : List Op)
    (rep : List SyncMsg) (e : String) (hcond : d.dirty = true ∨ d.ahead > 0)
    (hp : env.pushErr = some e) :
    SyncMsg.syncError e ∈ (syncPush d env ops rep).reported := by
  unfold syncPush
  rw [if_pos hcond, hp]
  simp

theorem syncRemote_reports (d : RepoStatus) (env : RepoEnv) (ops : List Op)
    (rep : List SyncMsg) (e : String) (h : firstRemoteError d env = some e) :
    SyncMsg.syncError e ∈ (syncRemote d env ops rep).reported := by
  unfold firstRemoteError at h
  unfold syncRemote
  by_cases ho : "origin" ∈ env.remotes
  · rw [if_pos ho] at h ⊢
    by_cases hb : d.behind > 0 ∧ env.pullErr.isSome
    · rw [if_pos hb] at h
      rw [if_pos hb.1, h]
      simp
    · rw [if_neg hb] at h
      by_cases hpu : (d.dirty = true ∨ d.ahead > 0) ∧ env.pushErr.isSome
      · rw [if_pos hpu] at h
        by_cases hb2 : d.behind > 0
        · have hpn : env.pullErr = none := by
            cases hpe : env.pullErr
            · rfl
            · exact absurd ⟨hb2, by rw [hpe]; rfl⟩ hb
          rw [if_pos hb2, hpn]
          exact syncPush_reports d env (ops ++ [Op.pull]) (rep ++ [SyncMsg.pulled]) e hpu.1 h
        · rw [if_neg hb2]
          exact syncPush_reports d env ops rep e hpu.1 h
      · rw [if_neg hpu] at h
        exact absurd h (by simp)
  · rw [if_neg ho] at h ⊢
    injection h with h2
    rw [← h2]
    simp

theorem sync_repo_reports (d : RepoStatus) (msg : String) (env : RepoEnv) (e : String)
    (ha : env.addErr = none) (hc : env.commitErr = none)
    (h : firstRemoteError d env = some e) :
    SyncMsg.syncError e ∈ (sync_repo d msg env).reported := by
  unfold sync_repo
  cases hd : d.dirty
  · exact syncRemote_reports d env [] [SyncMsg.processing d.name] e h
  · rw [ha, hc]
    exact syncRemote_reports d env [Op.stageAll, Op.commit msg]
      ([SyncMsg.processing d.name] ++ [SyncMsg.fileDetails] ++ [SyncMsg.localSaved]) e h

theorem batch_sync_all (l : List (RepoStatus × RepoEnv))
    (h : ∀ p ∈ l, p.2.addErr = none ∧ p.2.commitErr = none) :
    batch_sync l =
      (l.map (fun p => sync_repo p.1 "Auto-sync via Fleet Commander" p.2), none) := by
  induction l with
  | nil => rfl
  | cons p rest ih =>
    have hp := h p (List.mem_cons_self p rest)
    have hr : (sync_repo p.1 "Auto-sync via Fleet Commander" p.2).raised = none :=
      sync_repo_raised_none _ _ _ hp.1 hp.2
    unfold batch_sync
    rw [hr, ih (fun q hq => h q (List.mem_cons_of_mem p hq))]
    rfl

/-- C3: when the local save phase succeeds, every remote-operation failure
inside `sync_repo` is caught: nothing propagates, the batch visits every
repository, and a failing repository gets the underlying message reported
on its own output. -/
theorem remote_failures_caught_batch_continues (l : List (RepoStatus × RepoEnv))
    (h : ∀ p ∈ l, p.2.addErr = none ∧ p.2.commitErr = none) :
    (batch_sync l).2 = none ∧
    (batch_sync l).1 = l.map (fun p => sync_repo p.1 "Auto-sync via Fleet Commander" p.2) ∧
    ∀ p ∈ l, (sync_repo p.1 "Auto-sync via Fleet Commander" p.2).raised = none ∧
      ∀ e, firstRemoteError p.1 p.2 = some e →
        SyncMsg.syncError e ∈ (sync_repo p.1 "Auto-sync via Fleet Commander" p.2).reported := by
  refine ⟨?_, ?_, ?_⟩
  · rw [batch_sync_all l h]
  · rw [batch_sync_all l h]
  · intro p hp
    exact ⟨sync_repo_raised_none _ _ _ (h p hp).1 (h p hp).2,
      fun e he => sync_repo_reports _ _ _ e (h p hp).1 (h p hp).2 he⟩

/-- C3 witness: a batch of two repositories, the first with no `origin`
remote (its pull/push fails), the second healthy: both get processed. -/
theorem remote_failures_caught_batch_continues_witness :
    (batch_sync [(dirtyStatus, envNoOrigin), (cleanStatus, envAllOk)]).2 = none ∧
    (batch_sync [(dirtyStatus, envNoOrigin), (cleanStatus, envAllOk)]).1 =
      [(dirtyStatus, envNoOrigin), (cleanStatus, envAllOk)].map
        (fun p => sync_repo p.1 "Auto-sync via Fleet Commander" p.2) ∧
    ∀ p ∈ [(dirtyStatus, envNoOrigin), (cleanStatus, envAllOk)],
      (sync_repo p.1 "Auto-sync via Fleet Commander" p.2).raised = none ∧
      ∀ e, firstRemoteError p.1 p.2 = some e →
        SyncMsg.syncError e ∈ (sync_repo p.1 "Auto-sync via Fleet Commander" p.2).reported :=
  remote_failures_caught_batch_continues [(dirtyStatus, envNoOrigin), (cleanStatus, envAllOk)]
    (by
      intro p hp
      simp only [List.mem_cons, List.not_mem_nil, or_false] at hp
      rcases hp with rfl | rfl <;> exact ⟨rfl, rfl⟩)

/-- C10: a failure while staging or committing a dirty repository is not
caught by `sync_repo`: it propagates to the caller, and in a batch the
remaining repositories are never processed. -/
theorem save_failure_propagates_aborts_batch (d : RepoStatus) (msg : String) (env : RepoEnv)
    (rest : List (RepoStatus × RepoEnv)) (e : String) (hd : d.dirty = true)
    (hfail : env.addErr = some e ∨ (env.addErr = none ∧ env.commitErr = some e)) :
    (sync_repo d msg env).raised = some e ∧
    (batch_sync ((d, env) :: rest)).2 = some e ∧
    (batch_sync ((d, env) :: rest)).1.length = 1 := by
  have hr : ∀ m, (sync_repo d m env).raised = some e := by
    intro m
    unfold sync_repo
    rw [hd]
    rcases hfail with ha | ⟨ha, hc⟩
    · rw [ha]
      rfl
    · rw [ha, hc]
      rfl
  refine ⟨hr msg, ?_, ?_⟩
  · unfold batch_sync
    rw [hr "Auto-sync via Fleet Commander"]
  · unfold batch_sync
    rw [hr "Auto-sync via Fleet Commander"]
    rfl

/-- C10 witness: a dirty repository whose `git add` raises, followed by a
healthy repository that consequently never gets synced. -/
theorem save_failure_propagates_aborts_batch_witness :
    (sync_repo dirtyStatus "m" envAddFails).raised = some "add failed: permission denied" ∧
    (batch_sync [(dirtyStatus, envAddFails), (cleanStatus, envAllOk)]).2 =
      some "add failed: permission denied" ∧
    (batch_sync [(dirtyStatus, envAddFails), (cleanStatus, envAllOk)]).1.length = 1 :=
  save_failure_propagates_aborts_batch dirtyStatus "m" envAddFails [(cleanStatus, envAllOk)]
    "add failed: permission denied" rfl (Or.inl rfl)

theorem syncCounts_eq_zero (env : RepoEnv)
    (h : env.fetchOk = false ∨ env.tracking = none ∨ "origin" ∉ env.remotes) :
    syncCounts env = (0, 0) := by
  unfold syncCounts
  rcases h with hf | ht | ho
  · apply if_neg
    rintro ⟨-, h2, -⟩
    rw [hf] at h2
    exact Bool.false_ne_true h2
  · by_cases hcond : "origin" ∈ env.remotes ∧ env.fetchOk = true ∧ env.activeBranch.isSome
    · rw [if_pos hcond, ht]
    · rw [if_neg hcond]
  · apply if_neg
    rintro ⟨h1, -, -⟩
    exact ho h1

theorem get_git_status_ok (path : String) (env : RepoEnv) (b : Bool)
    (hv : env.validRepo = true) (hd : env.dirtyCheck = Except.ok b) :
    get_git_status path env = some
      { path := path, name := basename path, dirty := b,
        ahead := (syncCounts env).1, behind := (syncCounts env).2,
        branch := env.activeBranch.getD "DETACHED" } := by
  unfold get_git_status
  rw [hv, hd]
  cases ha : env.activeBranch <;> rfl

/-- C4 amended: branch resolution, the fetch and the ahead/behind
computation are each fault-tolerant — when the dirty check returns, a
detached HEAD, a failed fetch, a missing remote or a missing tracking branch
still yield a full status record with the remaining fields populated — but a
failure of the (unguarded) dirty check aborts the whole inspection and
`get_git_status` returns `None`. -/
theorem status_inspector_fault_tolerance (path : String) (env : RepoEnv)
    (hv : env.validRepo = true) :
    (∀ b, env.dirtyCheck = Except.ok b →
      ∃ s, get_git_status path env = some s ∧ s.dirty = b ∧
        s.branch = env.activeBranch.getD "DETACHED" ∧
        (env.fetchOk = false → s.ahead = 0 ∧ s.behind = 0)) ∧
    ∀ e, env.dirtyCheck = Except.error e → get_git_status path env = none := by
  constructor
  · intro b hb
    refine ⟨_, get_git_status_ok path env b hv hb, rfl, rfl, ?_⟩
    intro hf
    have hz := syncCounts_eq_zero env (Or.inl hf)
    constructor
    · show (syncCounts env).1 = 0
      rw [hz]
    · show (syncCounts env).2 = 0
      rw [hz]
  · intro e he
    unfold get_git_status
    rw [hv, he]
    rfl

/-- C4 counterexample: a repository where only the dirty check raises —
contrary to the claim, `get_git_status` returns no record at all. -/
theorem status_inspector_dirty_check_aborts :
    get_git_status "/home/sauron/unexusi/alpha" envDirtyCheckFails = none := rfl

/-- C4 witness: a valid repository whose fetch fails. -/
theorem status_inspector_fault_tolerance_witness :
    (∀ b, envFetchFails.dirtyCheck = Except.ok b →
      ∃ s, get_git_status "/home/sauron/unexusi/alpha" envFetchFails = some s ∧
        s.dirty = b ∧ s.branch = envFetchFails.activeBranch.getD "DETACHED" ∧
        (envFetchFails.fetchOk = false → s.ahead = 0 ∧ s.behind = 0)) ∧
    ∀ e, envFetchFails.dirtyCheck = Except.error e →
      get_git_status "/home/sauron/unexusi/alpha" envFetchFails = none :=
  status_inspector_fault_tolerance "/home/sauron/unexusi/alpha" envFetchFails rfl

/-- C6: when the fetch fails or no tracking branch is configured,
`get_git_status` still returns a record and it reports `ahead = 0` and
`behind = 0`, exactly like a fully synced branch. -/
theorem fetch_failure_or_no_tracking_zero (path : String) (env : RepoEnv) (b : Bool)
    (hv : env.validRepo = true) (hd : env.dirtyCheck = Except.ok b)
    (h : env.fetchOk = false ∨ env.tracking = none) :
    ∃ s, get_git_status path env = some s ∧ s.ahead = 0 ∧ s.behind = 0 := by
  have hz : syncCounts env = (0, 0) := by
    rcases h with h | h
    · exact syncCounts_eq_zero env (Or.inl h)
    · exact syncCounts_eq_zero env (Or.inr (Or.inl h))
  refine ⟨_, get_git_status_ok path env b hv hd, ?_, ?_⟩
  · show (syncCounts env).1 = 0
    rw [hz]
  · show (syncCounts env).2 = 0
    rw [hz]

/-- C6 witness: a genuinely diverged repository (2 ahead, 3 behind) whose
fetch fails reports 0/0. -/
theorem fetch_failure_or_no_tracking_zero_witness :
    ∃ s, get_git_status "/home/sauron/unexusi/alpha" envFetchFails = some s ∧
      s.ahead = 0 ∧ s.behind = 0 :=
  fetch_failure_or_no_tracking_zero "/home/sauron/unexusi/alpha" envFetchFails true
    rfl rfl (Or.inl rfl)

/-- C5: a missing root directory makes `check_permissions` print a warning
and return false rather than raise, `main_dashboard` return before its
command loop, and the scan degrade to an empty repository list. -/
theorem missing_root_warns_and_stops (fs : FS) (h : fs.rootExists = false) :
    (check_permissions fs).1 = false ∧
    PermMsg.warningMissing (ROOT_DIR fs.deviceMobile) (DEVICE_NAME fs.deviceMobile) ∈
      (check_permissions fs).2 ∧
    main_dashboard_start fs = DashOutcome.abortedNoRoot ∧
    scan fs = [] := by
  have hc : check_permissions fs =
      (false,
        PermMsg.warningMissing (ROOT_DIR fs.deviceMobile) (DEVICE_NAME fs.deviceMobile) ::
          (if fs.deviceMobile then [PermMsg.hintCheckFolder, PermMsg.hintTermuxSetup]
           else [])) := by
    unfold check_permissions
    rw [h]
    rfl
  refine ⟨by rw [hc], ?_, ?_, ?_⟩
  · rw [hc]
    exact List.mem_cons_self _ _
  · unfold main_dashboard_start
    rw [hc]
    rfl
  · unfold scan
    rw [h]
    rfl

/-- C5 witness: a laptop configuration whose root is absent. -/
theorem missing_root_warns_and_stops_witness :
    (check_permissions fsMissingRoot).1 = false ∧
    PermMsg.warningMissing (ROOT_DIR fsMissingRoot.deviceMobile)
        (DEVICE_NAME fsMissingRoot.deviceMobile) ∈ (check_permissions fsMissingRoot).2 ∧
    main_dashboard_start fsMissingRoot = DashOutcome.abortedNoRoot ∧
    scan fsMissingRoot = [] :=
  missing_root_warns_and_stops fsMissingRoot rfl

theorem string_append_cancel_left (a b c : String) (h : a ++ b = a ++ c) : b = c := by
  have hd : a.data ++ b.data = a.data ++ c.data := by
    have h2 := congrArg String.data h
    simpa using h2
  have h3 : b.data = c.data := List.append_cancel_left hd
  cases b
  cases c
  exact congrArg String.mk h3

theorem pathJoin_right_inj (a : String) {b c : String}
    (h : pathJoin a b = pathJoin a c) : b = c := by
  unfold pathJoin at h
  split at h
  · exact string_append_cancel_left a b c h
  · exact string_append_cancel_left (a ++ "/") b c h

theorem get_git_status_path {p : String} {env : RepoEnv} {s : RepoStatus}
    (h : get_git_status p env = some s) : s.path = p := by
  unfold get_git_status at h
  split at h
  · split at h
    · exact absurd h (by simp)
    · injection h with h2
      rw [← h2]
  · exact absurd h (by simp)

theorem scanFolder_eq_none (fs : FS) (root n : String)
    (h : qualifies fs root n = false) : scanFolder fs root n = none := by
  unfold scanFolder
  split
  case isTrue h1 =>
    unfold qualifies at h
    rw [h1.1, h1.2] at h
    simp at h
    cases hgs : get_git_status (pathJoin root n) (fs.repoEnv n)
    · rfl
    · rw [hgs] at h
      simp at h
  case isFalse h1 => rfl

theorem scanFolder_eq_some (fs : FS) (root n : String)
    (h : qualifies fs root n = true) :
    ∃ s, scanFolder fs root n = some s ∧ s.path = pathJoin root n := by
  unfold qualifies at h
  simp only [Bool.and_eq_true] at h
  obtain ⟨⟨h1, h2⟩, h3⟩ := h
  cases hgs : get_git_status (pathJoin root n) (fs.repoEnv n) with
  | none =>
    rw [hgs] at h3
    simp at h3
  | some s =>
    refine ⟨s, ?_, get_git_status_path hgs⟩
    unfold scanFolder
    rw [if_pos ⟨h1, h2⟩]
    exact hgs

theorem filterMap_scanFolder_paths (fs : FS) (root : String) (l : List String) :
    (l.filterMap (scanFolder fs root)).map (fun s => s.path) =
      (l.filter (qualifies fs root)).map (pathJoin root) := by
  induction l with
  | nil => rfl
  | cons n rest ih =>
    cases hq : qualifies fs root n
    · have hnone := scanFolder_eq_none fs root n hq
      simp [List.filterMap_cons, List.filter_cons, hnone, hq, ih]
    · obtain ⟨s, hs, hp⟩ := scanFolder_eq_some fs root n hq
      simp [List.filterMap_cons, List.filter_cons, hs, hq, ih, hp]

theorem scan_eq_filterMap (fs : FS) (h : fs.rootExists = true) :
    scan fs = (List.insertionSort (fun a b : String => a ≤ b) fs.entries).filterMap
      (scanFolder fs (ROOT_DIR fs.deviceMobile)) := by
  unfold scan
  rw [h]
  rfl

/-- C7: one dashboard scan walks only the immediate entries of the root,
keeps exactly those that are directories, contain a `.git` directory and
yield a status record, and lists them in alphabetical (lexicographic) order
of folder name. -/
theorem scan_exact_and_sorted (fs : FS) (h : fs.rootExists = true) :
    (scan fs).map (fun s => s.path) =
      ((List.insertionSort (fun a b : String => a ≤ b) fs.entries).filter
        (qualifies fs (ROOT_DIR fs.deviceMobile))).map (pathJoin (ROOT_DIR fs.deviceMobile)) ∧
    List.Sorted (fun a b : String => a ≤ b)
      ((List.insertionSort (fun a b : String => a ≤ b) fs.entries).filter
        (qualifies fs (ROOT_DIR fs.deviceMobile))) := by
  constructor
  · rw [scan_eq_filterMap fs h]
    exact filterMap_scanFolder_paths fs _ _
  · exact List.Sorted.filter _ (List.sorted_insertionSort _ fs.entries)

/-- C7 witness: a root with a single healthy repository folder. -/
theorem scan_exact_and_sorted_witness :
    (scan fsOneRepo).map (fun s => s.path) =
      ((List.insertionSort (fun a b : String => a ≤ b) fsOneRepo.entries).filter
        (qualifies fsOneRepo (ROOT_DIR fsOneRepo.deviceMobile))).map
        (pathJoin (ROOT_DIR fsOneRepo.deviceMobile)) ∧
    List.Sorted (fun a b : String => a ≤ b)
      ((List.insertionSort (fun a b : String => a ≤ b) fsOneRepo.entries).filter
        (qualifies fsOneRepo (ROOT_DIR fsOneRepo.deviceMobile))) :=
  scan_exact_and_sorted fsOneRepo rfl

/-- C8: a folder whose metadata is corrupt (the `Repo` constructor raises)
produces no record from `get_git_status` and its path never appears in the
scanned `repos_found` list — the scan itself completes. -/
theorem corrupt_repo_excluded (fs : FS) (n : String) (hroot : fs.rootExists = true)
    (hcorrupt : (fs.repoEnv n).validRepo = false) :
    get_git_status (pathJoin (ROOT_DIR fs.deviceMobile) n) (fs.repoEnv n) = none ∧
    pathJoin (ROOT_DIR fs.deviceMobile) n ∉ (scan fs).map (fun s => s.path) := by
  have hnone : get_git_status (pathJoin (ROOT_DIR fs.deviceMobile) n) (fs.repoEnv n) = none := by
    unfold get_git_status
    rw [hcorrupt]
    rfl
  refine ⟨hnone, ?_⟩
  intro hmem
  rw [scan_eq_filterMap fs hroot, filterMap_scanFolder_paths fs _ _, List.mem_map] at hmem
  obtain ⟨m, hm, he⟩ := hmem
  have hmn : m = n := pathJoin_right_inj (ROOT_DIR fs.deviceMobile) he
  subst hmn
  have hq : qualifies fs (ROOT_DIR fs.deviceMobile) m = true := List.of_mem_filter hm
  unfold qualifies at hq
  rw [hnone] at hq
  simp at hq

/-- C8 witness: a root containing a single corrupt repository folder. -/
theorem corrupt_repo_excluded_witness :
    get_git_status (pathJoin (ROOT_DIR fsCorruptRepo.deviceMobile) "broken")
      (fsCorruptRepo.repoEnv "broken") = none ∧
    pathJoin (ROOT_DIR fsCorruptRepo.deviceMobile) "broken" ∉
      (scan fsCorruptRepo).map (fun s => s.path) :=
  corrupt_repo_excluded fsCorruptRepo "broken" rfl rfl

theorem sync_repo_eq_remote (d : RepoStatus) (msg : String) (env : RepoEnv)
    (ha : env.addErr = none) (hc : env.commitErr = none) :
    sync_repo d msg env =
      if d.dirty = true then
        syncRemote d env [Op.stageAll, Op.commit msg]
          [SyncMsg.processing d.name, SyncMsg.fileDetails, SyncMsg.localSaved]
      else syncRemote d env [] [SyncMsg.processing d.name] := by
  unfold sync_repo
  rw [ha, hc]
  cases hd : d.dirty
  · rfl
  · rfl

/-- C9: all remote interaction is hard-coded to the remote name `origin`:
with any other remote configuration `get_git_status` reports 0/0 regardless
of real divergence, and `sync_repo` neither pulls nor pushes but reports the
sync error instead. -/
theorem origin_name_hardcoded (env : RepoEnv) (d : RepoStatus) (path msg : String) (b : Bool)
    (hrem : "origin" ∉ env.remotes) (hv : env.validRepo = true)
    (hd : env.dirtyCheck = Except.ok b)
    (ha : env.addErr = none) (hc : env.commitErr = none) :
    (∃ s, get_git_status path env = some s ∧ s.ahead = 0 ∧ s.behind = 0) ∧
    Op.pull ∉ (sync_repo d msg env).ops ∧
    Op.push ∉ (sync_repo d msg env).ops ∧
    SyncMsg.syncError noOriginError ∈ (sync_repo d msg env).reported := by
  have hz := syncCounts_eq_zero env (Or.inr (Or.inr hrem))
  have hs : ∀ ops rep, syncRemote d env ops rep =
      { ops := ops, reported := rep ++ [SyncMsg.syncError noOriginError], raised := none } := by
    intro ops rep
    unfold syncRemote
    rw [if_neg hrem]
  have hcases :
      sync_repo d msg env =
        { ops := [Op.stageAll, Op.commit msg],
          reported := [SyncMsg.processing d.name, SyncMsg.fileDetails, SyncMsg.localSaved] ++
            [SyncMsg.syncError noOriginError],
          raised := none } ∨
      sync_repo d msg env =
        { ops := [],
          reported := [SyncMsg.processing d.name] ++ [SyncMsg.syncError noOriginError],
          raised := none } := by
    rw [sync_repo_eq_remote d msg env ha hc]
    cases hdd : d.dirty
    · exact Or.inr (hs _ _)
    · exact Or.inl (hs _ _)
  refine ⟨⟨_, get_git_status_ok path env b hv hd, ?_, ?_⟩, ?_⟩
  · show (syncCounts env).1 = 0
    rw [hz]
  · show (syncCounts env).2 = 0
    rw [hz]
  · rcases hcases with hcase | hcase <;> rw [hcase] <;>
      refine ⟨by simp, by simp, by simp⟩

/-- C9 witness: a dirty repository whose only remote is `upstream`, 2 ahead
and 3 behind in reality. -/
theorem origin_name_hardcoded_witness :
    (∃ s, get_git_status "/home/sauron/unexusi/alpha" envNoOrigin = some s ∧
      s.ahead = 0 ∧ s.behind = 0) ∧
    Op.pull ∉ (sync_repo dirtyStatus "m" envNoOrigin).ops ∧
    Op.push ∉ (sync_repo dirtyStatus "m" envNoOrigin).ops ∧
    SyncMsg.syncError noOriginError ∈ (sync_repo dirtyStatus "m" envNoOrigin).reported :=
  origin_name_hardcoded envNoOrigin dirtyStatus "/home/sauron/unexusi/alpha" "m" true
    (by decide) rfl rfl rfl rfl

end FleetOps
